import Mathlib

/-!
Verification of the joint-center estimation core (`Center` in `lib/joints.py`).

Shallow embedding conventions:
* Real-number data is embedded as exact rationals (`ℚ`).  The float threshold
  ladder `0.8, 0.75, …` accumulates rounding error below `2e-15`, which never
  changes any comparison appearing in the claims (margins are at least `1e-2`),
  so the exact-rational ladder has the same step structure as the float one:
  masks are computed at thresholds `0.8 - 0.05*k` for `k = 0 … 14`, and the
  `thresh < 0.09` check fires inside the body of iteration `k = 14`.
* The Euclidean norm of the numeric library is an explicit function parameter
  `nrm : Vec3 → ℚ`; concrete instantiations in witnesses use inputs on which
  the chosen rational function agrees with the Euclidean norm.
* `numpy.linalg.lstsq` and `scipy.optimize.least_squares` are external
  collaborators; they enter as function parameters, constrained by their
  documented contracts in the hypotheses of the theorems that need them.
* Python exceptions are modelled by `Except CenterErr`.
-/

/-- A 3-vector of rationals (one row of the `Nx3` numpy arrays). -/
structure Vec3 where
  x : ℚ
  y : ℚ
  z : ℚ
deriving DecidableEq

namespace Vec3

def add (u v : Vec3) : Vec3 := ⟨u.x + v.x, u.y + v.y, u.z + v.z⟩

def sub (u v : Vec3) : Vec3 := ⟨u.x - v.x, u.y - v.y, u.z - v.z⟩

def neg (u : Vec3) : Vec3 := ⟨-u.x, -u.y, -u.z⟩

instance : Add Vec3 := ⟨Vec3.add⟩

instance : Sub Vec3 := ⟨Vec3.sub⟩

instance : Neg Vec3 := ⟨Vec3.neg⟩

/-- `numpy.cross` of two 3-vectors. -/
def cross (u v : Vec3) : Vec3 :=
  ⟨u.y * v.z - u.z * v.y, u.z * v.x - u.x * v.z, u.x * v.y - u.y * v.x⟩

def dot (u v : Vec3) : ℚ := u.x * v.x + u.y * v.y + u.z * v.z

lemma sub_eq (u v : Vec3) : u - v = ⟨u.x - v.x, u.y - v.y, u.z - v.z⟩ := rfl

lemma add_eq (u v : Vec3) : u + v = ⟨u.x + v.x, u.y + v.y, u.z + v.z⟩ := rfl

/-- Squared Euclidean norm (exact in ℚ). -/
def normSq (v : Vec3) : ℚ := v.x ^ 2 + v.y ^ 2 + v.z ^ 2

end Vec3

/-- A 3×3 matrix of rationals, stored as its three rows. -/
structure Mat3 where
  r0 : Vec3
  r1 : Vec3
  r2 : Vec3
deriving DecidableEq

namespace Mat3

def mulVec (A : Mat3) (v : Vec3) : Vec3 := ⟨A.r0.dot v, A.r1.dot v, A.r2.dot v⟩

def col0 (A : Mat3) : Vec3 := ⟨A.r0.x, A.r1.x, A.r2.x⟩

def col1 (A : Mat3) : Vec3 := ⟨A.r0.y, A.r1.y, A.r2.y⟩

def col2 (A : Mat3) : Vec3 := ⟨A.r0.z, A.r1.z, A.r2.z⟩

/-- Matrix product (`@` on per-sample 3×3 blocks). -/
def mul (A B : Mat3) : Mat3 :=
  ⟨⟨A.r0.dot B.col0, A.r0.dot B.col1, A.r0.dot B.col2⟩,
   ⟨A.r1.dot B.col0, A.r1.dot B.col1, A.r1.dot B.col2⟩,
   ⟨A.r2.dot B.col0, A.r2.dot B.col1, A.r2.dot B.col2⟩⟩

def neg (A : Mat3) : Mat3 := ⟨A.r0.neg, A.r1.neg, A.r2.neg⟩

/-- Row selector. -/
def row (A : Mat3) (i : Fin 3) : Vec3 :=
  match i.val with
  | 0 => A.r0
  | 1 => A.r1
  | _ => A.r2

end Mat3

/-- The per-sample skew-operator matrix built by `Center.compute`
(`lib/joints.py` lines 94–102 / 104–112): the rows are transcribed verbatim
from the source's `array([...]).transpose([2, 0, 1])`, whose per-sample slice
is exactly the 3×3 matrix with those row entries. -/
def Kmat (w wd : Vec3) : Mat3 :=
  ⟨⟨-w.y ^ 2 - w.z ^ 2, w.x * w.y - wd.z, wd.y + w.x * w.z⟩,
   ⟨wd.z + w.x * w.y, -w.x ^ 2 - w.z ^ 2, w.y * w.z - wd.x⟩,
   ⟨w.x * w.z - wd.y, wd.x + w.y * w.z, -w.x ^ 2 - w.y ^ 2⟩⟩

/-- The algebraic identity behind the skew operator: `K·r = w×(w×r) + wd×r`. -/
lemma Kmat_mulVec (w wd r : Vec3) :
    (Kmat w wd).mulVec r = (w.cross (w.cross r)).add (wd.cross r) := by
  simp only [Kmat, Mat3.mulVec, Vec3.cross, Vec3.add, Vec3.dot, Vec3.mk.injEq]
  refine ⟨by ring, by ring, by ring⟩

/-- The SSFC transported acceleration written with cross products equals the
one written with the `K` matrix: `(a − w×(w×r)) − wd×r = a − K·r`. -/
lemma sub_cross_eq_sub_Kmat (a w wd r : Vec3) :
    (a - w.cross (w.cross r)) - wd.cross r = a - (Kmat w wd).mulVec r := by
  simp only [Kmat, Mat3.mulVec, Vec3.cross, Vec3.dot, Vec3.sub_eq, Vec3.mk.injEq]
  refine ⟨by ring, by ring, by ring⟩

/-- C3: for every angular velocity `w`, angular acceleration `wd` and offset
`r`, the 3×3 matrix `K` built per sample by the code satisfies
`K·r = w×(w×r) + wd×r`, so the SSFC transported acceleration
`a − w×(w×r) − wd×r` equals `a − K·r`; in particular, for `w = (0,0,1)`,
`wd = (0,0,0)`, `r = (0.1,0,0)` the product `K·r` equals `(−0.1, 0, 0)`. -/
theorem sac_K_operator_identity (w wd r a : Vec3) :
    (Kmat w wd).mulVec r = (w.cross (w.cross r)).add (wd.cross r)
      ∧ (a - w.cross (w.cross r)) - wd.cross r = a - (Kmat w wd).mulVec r
      ∧ (Kmat ⟨0, 0, 1⟩ ⟨0, 0, 0⟩).mulVec ⟨1/10, 0, 0⟩ = ⟨-(1/10), 0, 0⟩ := by
  refine ⟨Kmat_mulVec w wd r, sub_cross_eq_sub_Kmat a w wd r, ?_⟩
  simp only [Kmat, Mat3.mulVec, Vec3.dot, Vec3.mk.injEq]
  norm_num

/-! ## The adaptive sample mask (`lib/joints.py` lines 76–91 / 127–142)

The loop is embedded with explicit fuel.  `computeMask` runs it with fuel 15,
which is shown (claim C7) to be enough for every input: the loop computes
masks at thresholds `0.8 - 0.05*k` for `k = 0 … 14` and the `thresh < 0.09`
check fires inside the body of iteration `k = 14`. -/

/-- One mask evaluation at threshold `t`:
`logical_and(nabs(prox_an) > thresh, nabs(dist_an) > thresh)`. -/
def maskAt {n : ℕ} (t : ℚ) (pn dn : Fin n → ℚ) : Fin n → Bool :=
  fun i => decide (t < |pn i|) && decide (t < |dn i|)

/-- Indices retained by a boolean mask (`prox_a[mask]` selection order). -/
def maskedIdx {n : ℕ} (m : Fin n → Bool) : List (Fin n) :=
  (List.finRange n).filter (fun i => m i)

/-- `mask.sum()`: the number of `True` entries. -/
def maskCount {n : ℕ} (m : Fin n → Bool) : ℕ := (maskedIdx m).length

/-- The threshold ladder `0.8 - 0.05*k` (exact rationals; see header note). -/
def ladder (k : ℕ) : ℚ := 4/5 - k/20

/-- The body of the `while mask.sum() < self.min_samples` loop, with fuel.
State: the current mask and the current threshold.  Mirrors the source: exit
with the current mask when the count is reached; otherwise recompute the mask,
decrement the threshold, and raise (`none`) as soon as the decremented
threshold is below `0.09` — before the count of the fresh mask is ever
re-tested. -/
def maskLoopGo {n : ℕ} (pn dn : Fin n → ℚ) (minS : ℕ) :
    ℕ → (Fin n → Bool) → ℚ → Option (Fin n → Bool)
  | 0, _, _ => none
  | fuel + 1, mask, thresh =>
    if minS ≤ maskCount mask then some mask
    else
      let m := maskAt thresh pn dn
      let t := thresh - 1/20
      if t < 9/100 then none
      else maskLoopGo pn dn minS fuel m t

/-- The masking stage: initial mask all-`False`, initial threshold `0.8`. -/
def computeMask {n : ℕ} (pn dn : Fin n → ℚ) (minS : ℕ) : Option (Fin n → Bool) :=
  maskLoopGo pn dn minS 15 (fun _ => false) (4/5)

lemma ladder_sub (j : ℕ) : ladder j - 1/20 = ladder (j + 1) := by
  simp only [ladder]
  push_cast
  ring

lemma ladder_not_lt_floor {k : ℕ} (hk : k ≤ 14) : ¬ ladder k < 9/100 := by
  have hq : (k : ℚ) ≤ 14 := by exact_mod_cast hk
  simp only [ladder, not_lt]
  linarith

lemma maskCount_false {n : ℕ} : maskCount (fun _ : Fin n => false) = 0 := by
  simp [maskCount, maskedIdx]

lemma maskCount_true {n : ℕ} : maskCount (fun _ : Fin n => true) = n := by
  simp [maskCount, maskedIdx]

/-- Characterization of the loop from step `j` on, when the incoming mask is
still too small: the result is decided by the first good step among
`j, j+1, …, 13`; a count first reached at step 14 is discarded by the raise. -/
lemma maskLoopGo_spec {n : ℕ} (pn dn : Fin n → ℚ) (minS : ℕ) :
    ∀ (f j : ℕ), j + f = 14 → ∀ (fuel : ℕ), f + 1 ≤ fuel →
      ∀ m : Fin n → Bool, maskCount m < minS →
      maskLoopGo pn dn minS fuel m (ladder j) =
        match (List.range' j f).find?
            (fun k => decide (minS ≤ maskCount (maskAt (ladder k) pn dn))) with
        | some k => some (maskAt (ladder k) pn dn)
        | none => none := by
  intro f
  induction f with
  | zero =>
    intro j hj fuel hfuel m hm
    match fuel, hfuel with
    | fu + 1, _ =>
      simp only [maskLoopGo, if_neg (not_le.mpr hm)]
      rw [ladder_sub]
      have : ladder (j + 1) < 9/100 := by
        subst hj
        simp only [ladder]
        norm_num
      simp [this, List.range']
  | succ f ih =>
    intro j hj fuel hfuel m hm
    have hj13 : j + 1 ≤ 14 := by omega
    match fuel, hfuel with
    | fu + 1, hfuel =>
      have hfu : f + 1 ≤ fu := by omega
      simp only [maskLoopGo, if_neg (not_le.mpr hm)]
      rw [ladder_sub, if_neg (ladder_not_lt_floor hj13)]
      rw [List.range'_succ]
      by_cases hgood : minS ≤ maskCount (maskAt (ladder j) pn dn)
      · have hstop : maskLoopGo pn dn minS fu (maskAt (ladder j) pn dn) (ladder (j + 1)) =
            some (maskAt (ladder j) pn dn) := by
          match fu, hfu with
          | fv + 1, _ => simp [maskLoopGo, hgood]
        rw [hstop]
        simp [List.find?, hgood]
      · rw [ih (j + 1) (by omega) fu hfu _ (not_le.mp hgood)]
        simp [List.find?, hgood]

/-- `computeMask` is decided by `find?` over ladder steps `0 … 13`. -/
lemma computeMask_eq_find {n : ℕ} (pn dn : Fin n → ℚ) (minS : ℕ) (h1 : 1 ≤ minS) :
    computeMask pn dn minS =
      match (List.range 14).find?
          (fun k => decide (minS ≤ maskCount (maskAt (ladder k) pn dn))) with
      | some k => some (maskAt (ladder k) pn dn)
      | none => none := by
  have h0 : maskCount (fun _ : Fin n => false) < minS := by
    rw [maskCount_false]; omega
  have := maskLoopGo_spec pn dn minS 14 0 (by omega) 15 (by omega) (fun _ => false) h0
  have hl : ladder 0 = 4/5 := by simp [ladder]
  rw [List.range_eq_range']
  rw [← this, computeMask, hl]

/-- Fuel stability: any fuel of at least 15 gives the loop's result. -/
lemma maskLoopGo_fuel_stable {n : ℕ} (pn dn : Fin n → ℚ) (minS fuel : ℕ)
    (hfuel : 15 ≤ fuel) :
    maskLoopGo pn dn minS fuel (fun _ => false) (4/5) = computeMask pn dn minS := by
  have hl : (4 : ℚ)/5 = ladder 0 := by simp [ladder]
  by_cases h1 : 1 ≤ minS
  · have h0 : maskCount (fun _ : Fin n => false) < minS := by
      rw [maskCount_false]; omega
    rw [hl, maskLoopGo_spec pn dn minS 14 0 (by omega) fuel (by omega) _ h0,
      computeMask_eq_find pn dn minS h1, List.range_eq_range']
  · have h0 : minS ≤ maskCount (fun _ : Fin n => false) := by omega
    match fuel, hfuel with
    | fu + 1, _ => simp [computeMask, maskLoopGo, h0]

/-! ## The full `Center.compute` pipeline -/

/-- The Python exceptions `Center.compute` can raise. -/
inductive CenterErr where
  /-- `ValueError('Not enough samples or samples with high motion …')`. -/
  | valueError : CenterErr
  /-- Unknown `method`: the `return` line reads locals that were never bound. -/
  | nameError : CenterErr
  /-- `residual[0]` on the empty residual array returned by `lstsq`. -/
  | indexError : CenterErr
deriving DecidableEq

/-- The seven array arguments of `Center.compute` (all of common length `N`). -/
structure Arrays (n : ℕ) where
  prox_a : Fin n → Vec3
  dist_a : Fin n → Vec3
  prox_w : Fin n → Vec3
  dist_w : Fin n → Vec3
  prox_wd : Fin n → Vec3
  dist_wd : Fin n → Vec3
  R_dist_prox : Fin n → Mat3

/-- The masking stage exactly as duplicated in both method branches
(`lib/joints.py` lines 76–91 and 127–142): when `mask_input` is set, run the
adaptive threshold loop on both sensors' dynamic acceleration magnitudes
`norm(a, axis=1) - g`; otherwise use the all-`True` mask.  `nrm` is the
numeric library's Euclidean norm, kept as a parameter (see header). -/
def buildMask {n : ℕ} (nrm : Vec3 → ℚ) (g : ℚ) (mask_input : Bool) (minS : ℕ)
    (ar : Arrays n) : Option (Fin n → Bool) :=
  if mask_input then
    computeMask (fun i => nrm (ar.prox_a i) - g) (fun i => nrm (ar.dist_a i) - g) minS
  else
    some (fun _ => true)

/-- One row of the horizontally concatenated per-sample block
`concatenate((prox_K, -R @ dist_K), axis=2)`: the first three entries come
from the row `p` of the left 3×3 block, the last three from the row `q` of
the right 3×3 block. -/
def row6 (p q : Vec3) : Fin 6 → ℚ := fun j =>
  match j.val with
  | 0 => p.x
  | 1 => p.y
  | 2 => p.z
  | 3 => q.x
  | 4 => q.y
  | _ => q.z

/-- The three rows a single retained sample contributes to `A` after
`reshape((-1, 6))`. -/
def sacRow3 (P Q : Mat3) : List (Fin 6 → ℚ) :=
  [row6 P.r0 Q.r0, row6 P.r1 Q.r1, row6 P.r2 Q.r2]

/-- The stacked `(3M)×6` matrix `A` of the SAC branch, as its list of rows:
per retained sample `i`, the block `[K_prox | -(R_dist_prox @ K_dist)]`. -/
def sacA {n : ℕ} (ar : Arrays n) (idx : List (Fin n)) : List (Fin 6 → ℚ) :=
  idx.flatMap (fun i =>
    sacRow3 (Kmat (ar.prox_w i) (ar.prox_wd i))
      (((ar.R_dist_prox i).mul (Kmat (ar.dist_w i) (ar.dist_wd i))).neg))

/-- The three entries a single retained sample contributes to `b` after
`reshape((-1, 1))`: the components of `prox_a - R_dist_prox @ dist_a`. -/
def sacB3 (bv : Vec3) : List ℚ := [bv.x, bv.y, bv.z]

/-- The stacked `(3M)×1` vector `b` of the SAC branch. -/
def sacB {n : ℕ} (ar : Arrays n) (idx : List (Fin n)) : List ℚ :=
  idx.flatMap (fun i => sacB3 (ar.prox_a i - (ar.R_dist_prox i).mulVec (ar.dist_a i)))

/-- A retained sample's data in the order of the `args` tuple passed to
`Center.compute_distance_residuals`. -/
structure SampleSSFC where
  a1 : Vec3
  a2 : Vec3
  w1 : Vec3
  w2 : Vec3
  wd1 : Vec3
  wd2 : Vec3
deriving DecidableEq

/-- The masked per-sample data handed to the nonlinear solver:
`(prox_a[mask], dist_a[mask], prox_w[mask], dist_w[mask], prox_wd[mask],
dist_wd[mask])`. -/
def ssfcSamples {n : ℕ} (ar : Arrays n) (idx : List (Fin n)) : List SampleSSFC :=
  idx.map (fun i =>
    ⟨ar.prox_a i, ar.dist_a i, ar.prox_w i, ar.dist_w i, ar.prox_wd i, ar.dist_wd i⟩)

/-- `Center.compute_distance_residuals` (`lib/joints.py` lines 181–187):
`r1 = r[:3]`, `r2 = r[3:]`,
`at1 = a1 - cross(w1, cross(w1, r1)) - cross(wd1, r1)` (likewise `at2`),
returning `norm(at1, axis=1) - norm(at2, axis=1)` per sample. -/
def compute_distance_residuals (nrm : Vec3 → ℚ) (r : Fin 6 → ℚ)
    (samples : List SampleSSFC) : List ℚ :=
  let r1 : Vec3 := ⟨r 0, r 1, r 2⟩
  let r2 : Vec3 := ⟨r 3, r 4, r 5⟩
  samples.map (fun s =>
    nrm ((s.a1 - s.w1.cross (s.w1.cross r1)) - s.wd1.cross r1)
      - nrm ((s.a2 - s.w2.cross (s.w2.cross r2)) - s.wd2.cross r2))

/-- `Center.compute`.  External numeric routines are parameters:
* `nrm` — the library's Euclidean norm;
* `lstsq` — `numpy.linalg.lstsq`, returning the solution (already reshaped to
  length 6) and the array of sums of squared residuals (empty unless the
  system is overdetermined and of full rank, per the numpy contract);
* `least_squares` — `scipy.optimize.least_squares`, taking the residual
  function, the initial guess `r_init` and the forwarded `opt_kwargs`, and
  returning `(sol.x, sol.cost)`.
The result mirrors `return r[:3], r[3:], residual / mask.sum()`. -/
def compute {O : Type} {n : ℕ} (nrm : Vec3 → ℚ)
    (lstsq : List (Fin 6 → ℚ) → List ℚ → (Fin 6 → ℚ) × List ℚ)
    (least_squares : ((Fin 6 → ℚ) → List ℚ) → (Fin 6 → ℚ) → O → (Fin 6 → ℚ) × ℚ)
    (g : ℚ) (method : String) (mask_input : Bool) (min_samples : ℕ)
    (opt_kwargs : O) (ar : Arrays n) : Except CenterErr (Vec3 × Vec3 × ℚ) :=
  if method = "SAC" then
    match buildMask nrm g mask_input min_samples ar with
    | none => .error .valueError
    | some mask =>
      let idx := maskedIdx mask
      let sol := lstsq (sacA ar idx) (sacB ar idx)
      match sol.2 with
      | [] => .error .indexError
      | r0 :: _ =>
        .ok (⟨sol.1 0, sol.1 1, sol.1 2⟩, ⟨sol.1 3, sol.1 4, sol.1 5⟩,
          r0 / (maskCount mask : ℚ))
  else if method = "SSFC" then
    match buildMask nrm g mask_input min_samples ar with
    | none => .error .valueError
    | some mask =>
      let idx := maskedIdx mask
      let sol := least_squares
        (fun r => compute_distance_residuals nrm r (ssfcSamples ar idx))
        (fun _ => 0) opt_kwargs
      .ok (⟨sol.1 0, sol.1 1, sol.1 2⟩, ⟨sol.1 3, sol.1 4, sol.1 5⟩,
        sol.2 / (maskCount mask : ℚ))
  else .error .nameError

/-- A row-list as a `Matrix`, for stating the numpy rank condition. -/
def toMatrix (A : List (Fin 6 → ℚ)) : Matrix (Fin A.length) (Fin 6) ℚ :=
  Matrix.of (fun i j => (A.get i) j)

/-- The taxicab norm; it coincides with the Euclidean norm on axis-aligned
vectors, which is what all concrete counterexamples and witnesses below use,
so those instantiations reflect real runs of the numpy code. -/
def nrm1 (v : Vec3) : ℚ := |v.x| + |v.y| + |v.z|

/-! ## The linear least-squares objective of the SAC branch -/

/-- Dot product of a 6-row with the unknown vector `r`. -/
def dot6 (row r : Fin 6 → ℚ) : ℚ :=
  row 0 * r 0 + row 1 * r 1 + row 2 * r 2 + row 3 * r 3 + row 4 * r 4 + row 5 * r 5

/-- `‖A·r − b‖²`: the objective of `min ‖A·r − b‖²` for a row-list `A` and
right-hand side `b`. -/
def sumSq (A : List (Fin 6 → ℚ)) (b : List ℚ) (r : Fin 6 → ℚ) : ℚ :=
  ((A.zip b).map (fun p => (dot6 p.1 r - p.2) ^ 2)).sum

/-- The specification's per-sample form of the same objective: for each
retained sample, the squared norm of
`K_prox·r_prox − (R_dist→prox·K_dist)·r_dist − (a_prox − R_dist→prox·a_dist)`,
summed over the retained samples. -/
def sacSpecErr {n : ℕ} (ar : Arrays n) (idx : List (Fin n)) (r : Fin 6 → ℚ) : ℚ :=
  (idx.map (fun i => Vec3.normSq
    ((Kmat (ar.prox_w i) (ar.prox_wd i)).mulVec ⟨r 0, r 1, r 2⟩
      - ((ar.R_dist_prox i).mul (Kmat (ar.dist_w i) (ar.dist_wd i))).mulVec ⟨r 3, r 4, r 5⟩
      - (ar.prox_a i - (ar.R_dist_prox i).mulVec (ar.dist_a i))))).sum

lemma row6_0 (p q : Vec3) : row6 p q 0 = p.x := rfl

lemma row6_1 (p q : Vec3) : row6 p q 1 = p.y := rfl

lemma row6_2 (p q : Vec3) : row6 p q 2 = p.z := rfl

lemma row6_3 (p q : Vec3) : row6 p q 3 = q.x := rfl

lemma row6_4 (p q : Vec3) : row6 p q 4 = q.y := rfl

lemma row6_5 (p q : Vec3) : row6 p q 5 = q.z := rfl

/-- One sample's three rows contribute exactly the squared norm of the
per-sample vector residual `P·r_prox + Q·r_dist − bv`. -/
lemma sumSq_sample (P Q : Mat3) (bv : Vec3) (r : Fin 6 → ℚ) :
    sumSq (sacRow3 P Q) (sacB3 bv) r =
      Vec3.normSq ((P.mulVec ⟨r 0, r 1, r 2⟩ + Q.mulVec ⟨r 3, r 4, r 5⟩) - bv) := by
  simp only [sumSq, sacRow3, sacB3, List.zip_cons_cons, List.zip_nil_right,
    List.map_cons, List.map_nil, List.sum_cons, List.sum_nil, dot6,
    row6_0, row6_1, row6_2, row6_3, row6_4, row6_5,
    Vec3.normSq, Mat3.mulVec, Vec3.dot, Vec3.add_eq, Vec3.sub_eq]
  ring

lemma sumSq_append (A1 A2 : List (Fin 6 → ℚ)) (b1 b2 : List ℚ)
    (h : A1.length = b1.length) (r : Fin 6 → ℚ) :
    sumSq (A1 ++ A2) (b1 ++ b2) r = sumSq A1 b1 r + sumSq A2 b2 r := by
  simp only [sumSq]
  rw [List.zip_append h, List.map_append, List.sum_append]

lemma sumSq_nonneg (A : List (Fin 6 → ℚ)) (b : List ℚ) (r : Fin 6 → ℚ) :
    0 ≤ sumSq A b r := by
  apply List.sum_nonneg
  intro q hq
  obtain ⟨p, _, rfl⟩ := List.mem_map.mp hq
  positivity

lemma Mat3.neg_mulVec (M : Mat3) (v : Vec3) :
    (M.neg).mulVec v = Vec3.neg (M.mulVec v) := by
  simp only [Mat3.neg, Mat3.mulVec, Vec3.neg, Vec3.dot, Vec3.mk.injEq]
  refine ⟨by ring, by ring, by ring⟩

lemma add_neg_mulVec (u w bv : Vec3) : (u + Vec3.neg w) - bv = (u - w) - bv := by
  simp only [Vec3.add_eq, Vec3.sub_eq, Vec3.neg, Vec3.mk.injEq]
  refine ⟨by ring, by ring, by ring⟩

/-- The stacked objective built by the code equals the specification's
per-sample block objective. -/
lemma sumSq_sacA {n : ℕ} (ar : Arrays n) (idx : List (Fin n)) (r : Fin 6 → ℚ) :
    sumSq (sacA ar idx) (sacB ar idx) r = sacSpecErr ar idx r := by
  induction idx with
  | nil => simp [sacA, sacB, sacSpecErr, sumSq]
  | cons i idx ih =>
    simp only [sacA, sacB, List.flatMap_cons, sacSpecErr, List.map_cons, List.sum_cons]
    rw [sumSq_append _ _ _ _ (by simp [sacRow3, sacB3]) r, sumSq_sample]
    simp only [sacA, sacB, sacSpecErr] at ih
    rw [ih, Mat3.neg_mulVec, add_neg_mulVec]

lemma sacA_length {n : ℕ} (ar : Arrays n) (idx : List (Fin n)) :
    (sacA ar idx).length = 3 * idx.length := by
  induction idx with
  | nil => simp [sacA]
  | cons i idx ih =>
    simp only [sacA, List.flatMap_cons, List.length_append, List.length_cons,
      sacRow3, List.length_nil] at ih ⊢
    omega

/-- C4: for method `'SAC'`, for every input whose mask retains `M` samples,
`compute` assembles exactly the stacked `(3M)×6` matrix `A` whose per-sample
block is `[K_prox | −R_dist→prox·K_dist]` and the `(3M)×1` vector `b` whose
per-sample block is `a_prox − R_dist→prox·a_dist` (conjuncts 1–2: `A` has
`3M` rows and the objective `‖A·r − b‖²` is exactly the specification's
per-sample block objective), solves `min ‖A·r − b‖²` for `r ∈ ℝ⁶`
(conjunct 3: the solver's minimizer minimizes the block objective), and
returns `r_prox = r[0:3]` and `r_dist = r[3:6]` (conjunct 4). -/
theorem sac_assembles_blocks_and_splits {O : Type} {n : ℕ} (nrm : Vec3 → ℚ)
    (lstsq : List (Fin 6 → ℚ) → List ℚ → (Fin 6 → ℚ) × List ℚ)
    (least_squares : ((Fin 6 → ℚ) → List ℚ) → (Fin 6 → ℚ) → O → (Fin 6 → ℚ) × ℚ)
    (g : ℚ) (mask_input : Bool) (min_samples : ℕ) (opt_kwargs : O)
    (ar : Arrays n) (mask : Fin n → Bool) (x : Fin 6 → ℚ) (r0 : ℚ) (rest : List ℚ)
    (hm : buildMask nrm g mask_input min_samples ar = some mask)
    (hsol : lstsq (sacA ar (maskedIdx mask)) (sacB ar (maskedIdx mask)) = (x, r0 :: rest))
    (hmin : ∀ r', sumSq (sacA ar (maskedIdx mask)) (sacB ar (maskedIdx mask)) x ≤
        sumSq (sacA ar (maskedIdx mask)) (sacB ar (maskedIdx mask)) r') :
    (sacA ar (maskedIdx mask)).length = 3 * (maskedIdx mask).length
    ∧ (∀ r', sumSq (sacA ar (maskedIdx mask)) (sacB ar (maskedIdx mask)) r' =
        sacSpecErr ar (maskedIdx mask) r')
    ∧ (∀ r', sacSpecErr ar (maskedIdx mask) x ≤ sacSpecErr ar (maskedIdx mask) r')
    ∧ compute nrm lstsq least_squares g "SAC" mask_input min_samples opt_kwargs ar =
        .ok (⟨x 0, x 1, x 2⟩, ⟨x 3, x 4, x 5⟩, r0 / (maskCount mask : ℚ)) := by
  refine ⟨sacA_length ar (maskedIdx mask), fun r' => sumSq_sacA ar (maskedIdx mask) r',
    fun r' => ?_, ?_⟩
  · rw [← sumSq_sacA, ← sumSq_sacA]
    exact hmin r'
  · simp [compute, hm, hsol]

/-! ## Concrete instantiations used by the witnesses and counterexamples -/

/-- One sample of all-zero kinematics (a degenerate but well-formed input). -/
def arZero1 : Arrays 1 :=
  ⟨fun _ => ⟨0, 0, 0⟩, fun _ => ⟨0, 0, 0⟩, fun _ => ⟨0, 0, 0⟩, fun _ => ⟨0, 0, 0⟩,
   fun _ => ⟨0, 0, 0⟩, fun _ => ⟨0, 0, 0⟩, fun _ => ⟨⟨0, 0, 0⟩, ⟨0, 0, 0⟩, ⟨0, 0, 0⟩⟩⟩

/-- One sample whose acceleration magnitude is `9.93` on both sensors, so the
dynamic magnitude at `g = 9.81` is `0.12`: below the first fourteen thresholds
but above the fifteenth (`≈ 0.10`). -/
def arLast : Arrays 1 :=
  ⟨fun _ => ⟨993/100, 0, 0⟩, fun _ => ⟨993/100, 0, 0⟩, fun _ => ⟨0, 0, 0⟩,
   fun _ => ⟨0, 0, 0⟩, fun _ => ⟨0, 0, 0⟩, fun _ => ⟨0, 0, 0⟩,
   fun _ => ⟨⟨0, 0, 0⟩, ⟨0, 0, 0⟩, ⟨0, 0, 0⟩⟩⟩

/-- One sample whose dynamic magnitude at `g = 9.81` is `1`: above the very
first threshold `0.8`. -/
def arMotion1 : Arrays 1 :=
  ⟨fun _ => ⟨1081/100, 0, 0⟩, fun _ => ⟨1081/100, 0, 0⟩, fun _ => ⟨0, 0, 0⟩,
   fun _ => ⟨0, 0, 0⟩, fun _ => ⟨0, 0, 0⟩, fun _ => ⟨0, 0, 0⟩,
   fun _ => ⟨⟨0, 0, 0⟩, ⟨0, 0, 0⟩, ⟨0, 0, 0⟩⟩⟩

/-- A stub linear solver returning the zero vector and one residual entry. -/
def lstsqZ : List (Fin 6 → ℚ) → List ℚ → (Fin 6 → ℚ) × List ℚ :=
  fun _ _ => (fun _ => 0, [0])

/-- A stub linear solver returning an empty residual array. -/
def lstsqE : List (Fin 6 → ℚ) → List ℚ → (Fin 6 → ℚ) × List ℚ :=
  fun _ _ => (fun _ => 0, [])

/-- A stub nonlinear solver returning the zero vector with zero cost. -/
def lsZ : ((Fin 6 → ℚ) → List ℚ) → (Fin 6 → ℚ) → Unit → (Fin 6 → ℚ) × ℚ :=
  fun _ _ _ => (fun _ => 0, 0)

/-- The empty trial (`N = 0`), a well-formed degenerate input. -/
def arE : Arrays 0 :=
  ⟨fun i => i.elim0, fun i => i.elim0, fun i => i.elim0, fun i => i.elim0,
   fun i => i.elim0, fun i => i.elim0, fun i => i.elim0⟩

/-- Witness for `sac_assembles_blocks_and_splits`: the empty trial with
masking disabled; the stub solver's zero vector trivially minimizes the empty
objective. -/
theorem sac_assembles_blocks_and_splits_witness :
    buildMask nrm1 (981/100) false 1000 arE = some (fun _ => true)
    ∧ ((sacA arE (maskedIdx (fun _ : Fin 0 => true))).length =
        3 * (maskedIdx (fun _ : Fin 0 => true)).length
      ∧ (∀ r', sumSq (sacA arE (maskedIdx (fun _ : Fin 0 => true)))
          (sacB arE (maskedIdx (fun _ : Fin 0 => true))) r' =
          sacSpecErr arE (maskedIdx (fun _ : Fin 0 => true)) r')
      ∧ (∀ r', sacSpecErr arE (maskedIdx (fun _ : Fin 0 => true)) (fun _ => 0) ≤
          sacSpecErr arE (maskedIdx (fun _ : Fin 0 => true)) r')
      ∧ compute nrm1 lstsqZ lsZ (981/100) "SAC" false 1000 () arE =
          .ok (⟨0, 0, 0⟩, ⟨0, 0, 0⟩,
            0 / (maskCount (fun _ : Fin 0 => true) : ℚ))) :=
  ⟨rfl, sac_assembles_blocks_and_splits nrm1 lstsqZ lsZ (981/100) false 1000 ()
    arE (fun _ => true) (fun _ => 0) 0 [] rfl rfl (fun _ => le_of_eq rfl)⟩

/-- C5: for method `'SSFC'`, for every masked input the per-sample scalar
residual function passed to the nonlinear solver equals
`‖a_prox,i − K(w_prox,i, wd_prox,i)·r_prox‖ − ‖a_dist,i − K(w_dist,i, wd_dist,i)·r_dist‖`
(first conjunct), the iteration starts from `r₀ = zeros(6)`, the
caller-supplied solver options are forwarded to the nonlinear least-squares
solver, and the solution vector is split as `r_prox = r[0:3]`,
`r_dist = r[3:6]` (second conjunct: `compute` hands the residual function,
the zero initial guess and `opt_kwargs` verbatim to the solver and splits its
solution). -/
theorem ssfc_residual_init_and_split {O : Type} {n : ℕ} (nrm : Vec3 → ℚ)
    (lstsq : List (Fin 6 → ℚ) → List ℚ → (Fin 6 → ℚ) × List ℚ)
    (least_squares : ((Fin 6 → ℚ) → List ℚ) → (Fin 6 → ℚ) → O → (Fin 6 → ℚ) × ℚ)
    (g : ℚ) (mask_input : Bool) (min_samples : ℕ) (opt_kwargs : O)
    (ar : Arrays n) (mask : Fin n → Bool)
    (hm : buildMask nrm g mask_input min_samples ar = some mask) :
    (∀ r, compute_distance_residuals nrm r (ssfcSamples ar (maskedIdx mask)) =
      (ssfcSamples ar (maskedIdx mask)).map (fun s =>
        nrm (s.a1 - (Kmat s.w1 s.wd1).mulVec ⟨r 0, r 1, r 2⟩)
          - nrm (s.a2 - (Kmat s.w2 s.wd2).mulVec ⟨r 3, r 4, r 5⟩)))
    ∧ compute nrm lstsq least_squares g "SSFC" mask_input min_samples opt_kwargs ar =
        .ok (⟨(least_squares
            (fun r => compute_distance_residuals nrm r (ssfcSamples ar (maskedIdx mask)))
            (fun _ => 0) opt_kwargs).1 0,
          (least_squares
            (fun r => compute_distance_residuals nrm r (ssfcSamples ar (maskedIdx mask)))
            (fun _ => 0) opt_kwargs).1 1,
          (least_squares
            (fun r => compute_distance_residuals nrm r (ssfcSamples ar (maskedIdx mask)))
            (fun _ => 0) opt_kwargs).1 2⟩,
          ⟨(least_squares
            (fun r => compute_distance_residuals nrm r (ssfcSamples ar (maskedIdx mask)))
            (fun _ => 0) opt_kwargs).1 3,
          (least_squares
            (fun r => compute_distance_residuals nrm r (ssfcSamples ar (maskedIdx mask)))
            (fun _ => 0) opt_kwargs).1 4,
          (least_squares
            (fun r => compute_distance_residuals nrm r (ssfcSamples ar (maskedIdx mask)))
            (fun _ => 0) opt_kwargs).1 5⟩,
          (least_squares
            (fun r => compute_distance_residuals nrm r (ssfcSamples ar (maskedIdx mask)))
            (fun _ => 0) opt_kwargs).2 / (maskCount mask : ℚ)) := by
  constructor
  · intro r
    simp only [compute_distance_residuals, sub_cross_eq_sub_Kmat]
  · simp [compute, hm]

/-- Witness for `ssfc_residual_init_and_split`: masking disabled on the
all-zero trial. -/
theorem ssfc_residual_init_and_split_witness :
    buildMask nrm1 (981/100) false 1000 arZero1 = some (fun _ => true)
    ∧ ((∀ r, compute_distance_residuals nrm1 r
          (ssfcSamples arZero1 (maskedIdx (fun _ : Fin 1 => true))) =
        (ssfcSamples arZero1 (maskedIdx (fun _ : Fin 1 => true))).map (fun s =>
          nrm1 (s.a1 - (Kmat s.w1 s.wd1).mulVec ⟨r 0, r 1, r 2⟩)
            - nrm1 (s.a2 - (Kmat s.w2 s.wd2).mulVec ⟨r 3, r 4, r 5⟩)))
      ∧ compute nrm1 lstsqZ lsZ (981/100) "SSFC" false 1000 () arZero1 =
          .ok (⟨(lsZ (fun r => compute_distance_residuals nrm1 r
              (ssfcSamples arZero1 (maskedIdx (fun _ : Fin 1 => true))))
              (fun _ => 0) ()).1 0,
            (lsZ (fun r => compute_distance_residuals nrm1 r
              (ssfcSamples arZero1 (maskedIdx (fun _ : Fin 1 => true))))
              (fun _ => 0) ()).1 1,
            (lsZ (fun r => compute_distance_residuals nrm1 r
              (ssfcSamples arZero1 (maskedIdx (fun _ : Fin 1 => true))))
              (fun _ => 0) ()).1 2⟩,
            ⟨(lsZ (fun r => compute_distance_residuals nrm1 r
              (ssfcSamples arZero1 (maskedIdx (fun _ : Fin 1 => true))))
              (fun _ => 0) ()).1 3,
            (lsZ (fun r => compute_distance_residuals nrm1 r
              (ssfcSamples arZero1 (maskedIdx (fun _ : Fin 1 => true))))
              (fun _ => 0) ()).1 4,
            (lsZ (fun r => compute_distance_residuals nrm1 r
              (ssfcSamples arZero1 (maskedIdx (fun _ : Fin 1 => true))))
              (fun _ => 0) ()).1 5⟩,
            (lsZ (fun r => compute_distance_residuals nrm1 r
              (ssfcSamples arZero1 (maskedIdx (fun _ : Fin 1 => true))))
              (fun _ => 0) ()).2 / (maskCount (fun _ : Fin 1 => true) : ℚ))) :=
  ⟨rfl, ssfc_residual_init_and_split nrm1 lstsqZ lsZ (981/100) false 1000 ()
    arZero1 (fun _ => true) rfl⟩

/-- C6: for both methods, the residual returned by `compute` is the solver's
reported error numerator (SAC: the first entry of the linear solver's
sum-of-squared-residuals array; SSFC: the nonlinear solver's final cost)
divided by the retained sample count `M = mask.sum()`, and — since dividing
the same nonzero numerator by `M` and by `N` differ whenever `M < N` — it is
never the numerator divided by the total sample count `N` when `M < N`. -/
theorem residual_divided_by_retained_count {O : Type} {n : ℕ} (nrm : Vec3 → ℚ)
    (lstsq : List (Fin 6 → ℚ) → List ℚ → (Fin 6 → ℚ) × List ℚ)
    (least_squares : ((Fin 6 → ℚ) → List ℚ) → (Fin 6 → ℚ) → O → (Fin 6 → ℚ) × ℚ)
    (g : ℚ) (mask_input : Bool) (min_samples : ℕ) (opt_kwargs : O)
    (ar : Arrays n) (mask : Fin n → Bool)
    (hm : buildMask nrm g mask_input min_samples ar = some mask) :
    (∀ (x : Fin 6 → ℚ) (r0 : ℚ) (rest : List ℚ),
      lstsq (sacA ar (maskedIdx mask)) (sacB ar (maskedIdx mask)) = (x, r0 :: rest) →
      compute nrm lstsq least_squares g "SAC" mask_input min_samples opt_kwargs ar =
        .ok (⟨x 0, x 1, x 2⟩, ⟨x 3, x 4, x 5⟩, r0 / (maskCount mask : ℚ)))
    ∧ compute nrm lstsq least_squares g "SSFC" mask_input min_samples opt_kwargs ar =
        .ok (⟨(least_squares
            (fun r => compute_distance_residuals nrm r (ssfcSamples ar (maskedIdx mask)))
            (fun _ => 0) opt_kwargs).1 0,
          (least_squares
            (fun r => compute_distance_residuals nrm r (ssfcSamples ar (maskedIdx mask)))
            (fun _ => 0) opt_kwargs).1 1,
          (least_squares
            (fun r => compute_distance_residuals nrm r (ssfcSamples ar (maskedIdx mask)))
            (fun _ => 0) opt_kwargs).1 2⟩,
          ⟨(least_squares
            (fun r => compute_distance_residuals nrm r (ssfcSamples ar (maskedIdx mask)))
            (fun _ => 0) opt_kwargs).1 3,
          (least_squares
            (fun r => compute_distance_residuals nrm r (ssfcSamples ar (maskedIdx mask)))
            (fun _ => 0) opt_kwargs).1 4,
          (least_squares
            (fun r => compute_distance_residuals nrm r (ssfcSamples ar (maskedIdx mask)))
            (fun _ => 0) opt_kwargs).1 5⟩,
          (least_squares
            (fun r => compute_distance_residuals nrm r (ssfcSamples ar (maskedIdx mask)))
            (fun _ => 0) opt_kwargs).2 / (maskCount mask : ℚ))
    ∧ (∀ num : ℚ, maskCount mask < n → num ≠ 0 →
        num / (maskCount mask : ℚ) ≠ num / (n : ℚ)) := by
  refine ⟨fun x r0 rest hsol => by simp [compute, hm, hsol], by simp [compute, hm],
    fun num hlt hnum heq => ?_⟩
  have hn0 : 0 < n := lt_of_le_of_lt (Nat.zero_le _) hlt
  rcases Nat.eq_zero_or_pos (maskCount mask) with h0 | hpos
  · rw [h0] at heq
    simp only [Nat.cast_zero, div_zero] at heq
    have : num / (n : ℚ) ≠ 0 := by
      apply div_ne_zero hnum
      exact_mod_cast hn0.ne'
    exact this heq.symm
  · have hM : ((maskCount mask : ℚ)) ≠ 0 := by exact_mod_cast hpos.ne'
    have hN : ((n : ℚ)) ≠ 0 := by exact_mod_cast hn0.ne'
    rw [div_eq_div_iff hM hN] at heq
    have h3 : n = maskCount mask := by
      field_simp at heq
      rcases heq with heq | heq
      · exact heq
      · exact absurd heq hnum
    omega

/-- Witness for `residual_divided_by_retained_count`: masking disabled on the
all-zero one-sample trial. -/
theorem residual_divided_by_retained_count_witness :
    buildMask nrm1 (981/100) false 1000 arZero1 = some (fun _ => true)
    ∧ ((∀ (x : Fin 6 → ℚ) (r0 : ℚ) (rest : List ℚ),
        lstsqZ (sacA arZero1 (maskedIdx (fun _ : Fin 1 => true)))
          (sacB arZero1 (maskedIdx (fun _ : Fin 1 => true))) = (x, r0 :: rest) →
        compute nrm1 lstsqZ lsZ (981/100) "SAC" false 1000 () arZero1 =
          .ok (⟨x 0, x 1, x 2⟩, ⟨x 3, x 4, x 5⟩,
            r0 / (maskCount (fun _ : Fin 1 => true) : ℚ)))
      ∧ compute nrm1 lstsqZ lsZ (981/100) "SSFC" false 1000 () arZero1 =
          .ok (⟨(lsZ (fun r => compute_distance_residuals nrm1 r
              (ssfcSamples arZero1 (maskedIdx (fun _ : Fin 1 => true))))
              (fun _ => 0) ()).1 0,
            (lsZ (fun r => compute_distance_residuals nrm1 r
              (ssfcSamples arZero1 (maskedIdx (fun _ : Fin 1 => true))))
              (fun _ => 0) ()).1 1,
            (lsZ (fun r => compute_distance_residuals nrm1 r
              (ssfcSamples arZero1 (maskedIdx (fun _ : Fin 1 => true))))
              (fun _ => 0) ()).1 2⟩,
            ⟨(lsZ (fun r => compute_distance_residuals nrm1 r
              (ssfcSamples arZero1 (maskedIdx (fun _ : Fin 1 => true))))
              (fun _ => 0) ()).1 3,
            (lsZ (fun r => compute_distance_residuals nrm1 r
              (ssfcSamples arZero1 (maskedIdx (fun _ : Fin 1 => true))))
              (fun _ => 0) ()).1 4,
            (lsZ (fun r => compute_distance_residuals nrm1 r
              (ssfcSamples arZero1 (maskedIdx (fun _ : Fin 1 => true))))
              (fun _ => 0) ()).1 5⟩,
            (lsZ (fun r => compute_distance_residuals nrm1 r
              (ssfcSamples arZero1 (maskedIdx (fun _ : Fin 1 => true))))
              (fun _ => 0) ()).2 / (maskCount (fun _ : Fin 1 => true) : ℚ))
      ∧ (∀ num : ℚ, maskCount (fun _ : Fin 1 => true) < 1 → num ≠ 0 →
          num / (maskCount (fun _ : Fin 1 => true) : ℚ) ≠ num / ((1 : ℕ) : ℚ))) :=
  ⟨rfl, residual_divided_by_retained_count nrm1 lstsqZ lsZ (981/100) false 1000 ()
    arZero1 (fun _ => true) rfl⟩

/-! ## Masking claims: first-step characterization, failure characterization -/

lemma maskCount_const (t v : ℚ) :
    maskCount (maskAt t (fun _ : Fin 1 => v) (fun _ : Fin 1 => v)) =
      if t < |v| then 1 else 0 := by
  by_cases h : t < |v|
  · simp [maskCount, maskedIdx, maskAt, h, List.finRange]
  · simp [maskCount, maskedIdx, maskAt, h, List.finRange]

lemma ladder_ge_of_le_13 {k : ℕ} (hk : k ≤ 13) : 3/20 ≤ ladder k := by
  have hq : (k : ℚ) ≤ 13 := by exact_mod_cast hk
  simp only [ladder]
  linarith

/-- C1 (amended): with masking enabled, whenever some step of the first
fourteen ladder steps (thresholds `0.8` down to `0.15`) yields at least
`min_samples` samples where both sensors' absolute dynamic-acceleration
magnitude strictly exceeds the threshold, `compute` returns normally and the
retained set is exactly the mask of the first such ladder step; a count first
reached only at the fifteenth and last ladder step above the floor (`≈ 0.10`)
is discarded because the floor check fires before the retained count is
re-tested (see the counterexample).  With masking disabled, the mask is
all-`True` and the retained count equals `N` exactly. -/
theorem mask_retains_first_successful_step {O : Type} {n : ℕ} (nrm : Vec3 → ℚ)
    (lstsq : List (Fin 6 → ℚ) → List ℚ → (Fin 6 → ℚ) × List ℚ)
    (least_squares : ((Fin 6 → ℚ) → List ℚ) → (Fin 6 → ℚ) → O → (Fin 6 → ℚ) × ℚ)
    (g : ℚ) (min_samples : ℕ) (opt_kwargs : O) (ar : Arrays n)
    (pn dn : Fin n → ℚ) (h1 : 1 ≤ min_samples)
    (hpn : pn = fun i => nrm (ar.prox_a i) - g)
    (hdn : dn = fun i => nrm (ar.dist_a i) - g) :
    (∀ k, (List.range 14).find?
        (fun j => decide (min_samples ≤ maskCount (maskAt (ladder j) pn dn))) = some k →
      computeMask pn dn min_samples = some (maskAt (ladder k) pn dn)
      ∧ ∃ v, compute nrm lstsq least_squares g "SSFC" true min_samples opt_kwargs ar =
          .ok v)
    ∧ (buildMask nrm g false min_samples ar = some (fun _ => true)
      ∧ maskCount (fun _ : Fin n => true) = n) := by
  refine ⟨fun k hk => ⟨?_, ?_⟩, by simp [buildMask], maskCount_true⟩
  · rw [computeMask_eq_find pn dn min_samples h1, hk]
  · have hbm : buildMask nrm g true min_samples ar =
        some (maskAt (ladder k) pn dn) := by
      simp only [buildMask, if_pos]
      rw [← hpn, ← hdn, computeMask_eq_find pn dn min_samples h1, hk]
    simp [compute, hbm]

/-- Counterexample to C1 as stated: one sample with acceleration magnitude
`9.93` on both sensors at `g = 9.81` (dynamic magnitude `0.12`) and
`min_samples = 1`.  The fifteenth ladder step (`ladder 14 ≈ 0.10`) is above
the floor `0.09` and its mask retains 1 ≥ `min_samples` sample — it is the
first (and last) successful ladder step — yet the masking loop raises, and
`compute` raises the insufficient-motion `ValueError` instead of returning
normally. -/
theorem mask_last_step_counterexample :
    9/100 < ladder 14
    ∧ 1 ≤ maskCount (maskAt (ladder 14)
        (fun _ : Fin 1 => 12/100) (fun _ : Fin 1 => 12/100))
    ∧ computeMask (fun _ : Fin 1 => 12/100) (fun _ : Fin 1 => 12/100) 1 = none
    ∧ compute nrm1 lstsqZ lsZ (981/100) "SSFC" true 1 () arLast =
        .error .valueError := by
  have hcm : computeMask (fun _ : Fin 1 => 12/100) (fun _ : Fin 1 => 12/100) 1 = none := by
    rw [computeMask_eq_find _ _ _ (by omega)]
    have hf : (List.range 14).find?
        (fun j => decide (1 ≤ maskCount (maskAt (ladder j)
          (fun _ : Fin 1 => 12/100) (fun _ : Fin 1 => 12/100)))) = none := by
      rw [List.find?_eq_none]
      intro k hk
      rw [List.mem_range] at hk
      have hlt : ¬ ladder k < |(12 : ℚ)/100| := by
        have := ladder_ge_of_le_13 (k := k) (by omega)
        rw [abs_of_pos (by norm_num)]
        linarith
      simp [maskCount_const, hlt]
    rw [hf]
  refine ⟨by simp only [ladder]; norm_num, ?_, hcm, ?_⟩
  · rw [maskCount_const, if_pos]
    rw [abs_of_pos (by norm_num)]
    simp only [ladder]
    norm_num
  · have hpn : (fun i => nrm1 (arLast.prox_a i) - 981/100) = (fun _ : Fin 1 => (12 : ℚ)/100) := by
      funext i
      show |(993 : ℚ)/100| + |(0 : ℚ)| + |(0 : ℚ)| - 981/100 = 12/100
      rw [abs_of_pos (by norm_num), abs_zero]
      norm_num
    have hdn : (fun i => nrm1 (arLast.dist_a i) - 981/100) = (fun _ : Fin 1 => (12 : ℚ)/100) := by
      funext i
      show |(993 : ℚ)/100| + |(0 : ℚ)| + |(0 : ℚ)| - 981/100 = 12/100
      rw [abs_of_pos (by norm_num), abs_zero]
      norm_num
    have hbm : buildMask nrm1 (981/100) true 1 arLast = none := by
      simp only [buildMask, if_pos]
      rw [hpn, hdn, hcm]
    simp [compute, hbm]

/-- Witness for `mask_retains_first_successful_step`: one sample of dynamic
magnitude `1` (acceleration `10.81`, `g = 9.81`), `min_samples = 1`: the very
first ladder step (threshold `0.8`) already succeeds. -/
theorem mask_retains_first_successful_step_witness :
    (1 ≤ 1
      ∧ ((fun i => nrm1 (arMotion1.prox_a i) - 981/100) =
          fun i => nrm1 (arMotion1.prox_a i) - 981/100))
    ∧ ((∀ k, (List.range 14).find?
          (fun j => decide (1 ≤ maskCount (maskAt (ladder j)
            (fun i => nrm1 (arMotion1.prox_a i) - 981/100)
            (fun i => nrm1 (arMotion1.dist_a i) - 981/100)))) = some k →
        computeMask (fun i => nrm1 (arMotion1.prox_a i) - 981/100)
            (fun i => nrm1 (arMotion1.dist_a i) - 981/100) 1 =
          some (maskAt (ladder k)
            (fun i => nrm1 (arMotion1.prox_a i) - 981/100)
            (fun i => nrm1 (arMotion1.dist_a i) - 981/100))
        ∧ ∃ v, compute nrm1 lstsqZ lsZ (981/100) "SSFC" true 1 () arMotion1 = .ok v)
      ∧ (buildMask nrm1 (981/100) false 1 arMotion1 = some (fun _ => true)
        ∧ maskCount (fun _ : Fin 1 => true) = 1)) :=
  ⟨⟨Nat.le_refl 1, rfl⟩,
    mask_retains_first_successful_step nrm1 lstsqZ lsZ (981/100) 1 () arMotion1
      (fun i => nrm1 (arMotion1.prox_a i) - 981/100)
      (fun i => nrm1 (arMotion1.dist_a i) - 981/100) (Nat.le_refl 1) rfl rfl⟩

/-- C2 (amended): with masking enabled, `compute` raises the
insufficient-motion error if and only if none of the first fourteen ladder
steps (thresholds `0.8` down to `0.15`) yields a both-sensor AND count of at
least `min_samples` — a count reached only at the last ladder step above the
floor (`≈ 0.10`) does not prevent the error (see the counterexample).  On
that failure it raises before producing any estimate (for both methods and
regardless of the solvers), and a successful mask never retains fewer than
`min_samples` samples. -/
theorem insufficient_motion_iff {O : Type} {n : ℕ} (nrm : Vec3 → ℚ)
    (lstsq : List (Fin 6 → ℚ) → List ℚ → (Fin 6 → ℚ) × List ℚ)
    (least_squares : ((Fin 6 → ℚ) → List ℚ) → (Fin 6 → ℚ) → O → (Fin 6 → ℚ) × ℚ)
    (g : ℚ) (min_samples : ℕ) (opt_kwargs : O) (ar : Arrays n)
    (pn dn : Fin n → ℚ) (h1 : 1 ≤ min_samples)
    (hpn : pn = fun i => nrm (ar.prox_a i) - g)
    (hdn : dn = fun i => nrm (ar.dist_a i) - g) :
    (computeMask pn dn min_samples = none ↔
      ∀ k < 14, maskCount (maskAt (ladder k) pn dn) < min_samples)
    ∧ (computeMask pn dn min_samples = none →
      compute nrm lstsq least_squares g "SAC" true min_samples opt_kwargs ar =
          .error .valueError
        ∧ compute nrm lstsq least_squares g "SSFC" true min_samples opt_kwargs ar =
          .error .valueError)
    ∧ (∀ m, computeMask pn dn min_samples = some m → min_samples ≤ maskCount m) := by
  refine ⟨?_, fun hnone => ?_, fun m hsome => ?_⟩
  · rw [computeMask_eq_find pn dn min_samples h1]
    rcases hfind : (List.range 14).find?
        (fun j => decide (min_samples ≤ maskCount (maskAt (ladder j) pn dn)))
      with _ | k
    · refine iff_of_true rfl fun k hk => ?_
      have := List.find?_eq_none.mp hfind k (List.mem_range.mpr hk)
      simpa using this
    · refine iff_of_false (by simp) ?_
      push_neg
      refine ⟨k, List.mem_range.mp (List.mem_of_find?_eq_some hfind), ?_⟩
      have := List.find?_some hfind
      simpa using this
  · have hbm : buildMask nrm g true min_samples ar = none := by
      simp only [buildMask, if_pos]
      rw [← hpn, ← hdn, hnone]
    exact ⟨by simp [compute, hbm], by simp [compute, hbm]⟩
  · rw [computeMask_eq_find pn dn min_samples h1] at hsome
    rcases hfind : (List.range 14).find?
        (fun j => decide (min_samples ≤ maskCount (maskAt (ladder j) pn dn)))
      with _ | k
    · rw [hfind] at hsome
      exact absurd hsome (by simp)
    · rw [hfind] at hsome
      have hk := List.find?_some hfind
      simp only [Option.some.injEq] at hsome
      rw [← hsome]
      simpa using hk

/-- Counterexample to C2 as stated: one sample of dynamic magnitude `0.11`
and `min_samples = 1`.  The last ladder step above the floor
(`ladder 14 ≈ 0.10 > 0.09`) yields a both-sensor AND count of `1 ≥ 1`, so
"no ladder step from 0.8 down to the 0.09 floor yields at least min_samples"
is false, yet the insufficient-motion error is still raised. -/
theorem insufficient_motion_iff_counterexample :
    9/100 < ladder 14
    ∧ 1 ≤ maskCount (maskAt (ladder 14)
        (fun _ : Fin 1 => 11/100) (fun _ : Fin 1 => 11/100))
    ∧ computeMask (fun _ : Fin 1 => 11/100) (fun _ : Fin 1 => 11/100) 1 = none := by
  refine ⟨by simp only [ladder]; norm_num, ?_, ?_⟩
  · rw [maskCount_const, if_pos]
    rw [abs_of_pos (by norm_num)]
    simp only [ladder]
    norm_num
  · rw [computeMask_eq_find _ _ _ (by omega)]
    have hf : (List.range 14).find?
        (fun j => decide (1 ≤ maskCount (maskAt (ladder j)
          (fun _ : Fin 1 => 11/100) (fun _ : Fin 1 => 11/100)))) = none := by
      rw [List.find?_eq_none]
      intro k hk
      rw [List.mem_range] at hk
      have hlt : ¬ ladder k < |(11 : ℚ)/100| := by
        have := ladder_ge_of_le_13 (k := k) (by omega)
        rw [abs_of_pos (by norm_num)]
        linarith
      simp [maskCount_const, hlt]
    rw [hf]

/-- Witness for `insufficient_motion_iff`: the all-zero one-sample trial with
`min_samples = 1` (no dynamic motion at all). -/
theorem insufficient_motion_iff_witness :
    (1 ≤ 1)
    ∧ ((computeMask (fun i => nrm1 (arZero1.prox_a i) - 981/100)
          (fun i => nrm1 (arZero1.dist_a i) - 981/100) 1 = none ↔
        ∀ k < 14, maskCount (maskAt (ladder k)
          (fun i => nrm1 (arZero1.prox_a i) - 981/100)
          (fun i => nrm1 (arZero1.dist_a i) - 981/100)) < 1)
      ∧ (computeMask (fun i => nrm1 (arZero1.prox_a i) - 981/100)
          (fun i => nrm1 (arZero1.dist_a i) - 981/100) 1 = none →
        compute nrm1 lstsqZ lsZ (981/100) "SAC" true 1 () arZero1 = .error .valueError
          ∧ compute nrm1 lstsqZ lsZ (981/100) "SSFC" true 1 () arZero1 =
            .error .valueError)
      ∧ (∀ m, computeMask (fun i => nrm1 (arZero1.prox_a i) - 981/100)
          (fun i => nrm1 (arZero1.dist_a i) - 981/100) 1 = some m →
        1 ≤ maskCount m)) :=
  ⟨Nat.le_refl 1,
    insufficient_motion_iff nrm1 lstsqZ lsZ (981/100) 1 () arZero1
      (fun i => nrm1 (arZero1.prox_a i) - 981/100)
      (fun i => nrm1 (arZero1.dist_a i) - 981/100) (Nat.le_refl 1) rfl rfl⟩

/-- C7: the adaptive masking loop always terminates: at most
`⌈(0.8−0.09)/0.05⌉ = 15` threshold steps are ever executed before the loop
either returns a sufficient mask or raises the insufficient-motion error —
running the loop body with any fuel of at least 15 gives the same result as
`computeMask` (which uses exactly 15). -/
theorem mask_loop_bounded_by_15 {n : ℕ} (pn dn : Fin n → ℚ) (minS fuel : ℕ)
    (hfuel : 15 ≤ fuel) :
    maskLoopGo pn dn minS fuel (fun _ => false) (4/5) = computeMask pn dn minS
    ∧ (⌈(((4 : ℚ)/5 - 9/100) / (1/20))⌉ = 15) :=
  ⟨maskLoopGo_fuel_stable pn dn minS fuel hfuel, by
    rw [show ((4 : ℚ)/5 - 9/100) / (1/20) = 71/5 by norm_num, Int.ceil_eq_iff]
    norm_num⟩

/-- Witness for `mask_loop_bounded_by_15` at fuel 16 on a one-sample input. -/
theorem mask_loop_bounded_by_15_witness :
    15 ≤ 16
    ∧ (maskLoopGo (fun _ : Fin 1 => 0) (fun _ : Fin 1 => 0) 1 16
        (fun _ => false) (4/5) = computeMask (fun _ : Fin 1 => 0) (fun _ : Fin 1 => 0) 1
      ∧ (⌈(((4 : ℚ)/5 - 9/100) / (1/20))⌉ = 15)) :=
  ⟨by omega, mask_loop_bounded_by_15 (fun _ => 0) (fun _ => 0) 1 16 (by omega)⟩

/-- C8: for method `'SSFC'`, the output of `compute` is independent of the
`R_dist_prox` argument: two calls identical in every other input and in
configuration, but differing arbitrarily in `R_dist_prox`, return identical
results. -/
theorem ssfc_independent_of_rotations {O : Type} {n : ℕ} (nrm : Vec3 → ℚ)
    (lstsq : List (Fin 6 → ℚ) → List ℚ → (Fin 6 → ℚ) × List ℚ)
    (least_squares : ((Fin 6 → ℚ) → List ℚ) → (Fin 6 → ℚ) → O → (Fin 6 → ℚ) × ℚ)
    (g : ℚ) (mask_input : Bool) (min_samples : ℕ) (opt_kwargs : O)
    (ar : Arrays n) (R2 : Fin n → Mat3) :
    compute nrm lstsq least_squares g "SSFC" mask_input min_samples opt_kwargs ar =
      compute nrm lstsq least_squares g "SSFC" mask_input min_samples opt_kwargs
        ⟨ar.prox_a, ar.dist_a, ar.prox_w, ar.dist_w, ar.prox_wd, ar.dist_wd, R2⟩ := by
  cases ar
  rfl

/-- C9: for every `method` value other than `'SAC'` and `'SSFC'` (including
the documented `'SSFCv'`), `compute` raises an error — the result variables
are never bound, so the `return` line raises `NameError` — and never returns
a triple. -/
theorem unknown_method_never_returns {O : Type} {n : ℕ} (nrm : Vec3 → ℚ)
    (lstsq : List (Fin 6 → ℚ) → List ℚ → (Fin 6 → ℚ) × List ℚ)
    (least_squares : ((Fin 6 → ℚ) → List ℚ) → (Fin 6 → ℚ) → O → (Fin 6 → ℚ) × ℚ)
    (g : ℚ) (mask_input : Bool) (min_samples : ℕ) (opt_kwargs : O)
    (ar : Arrays n) (method : String)
    (h1 : method ≠ "SAC") (h2 : method ≠ "SSFC") :
    compute nrm lstsq least_squares g method mask_input min_samples opt_kwargs ar =
      .error .nameError := by
  simp [compute, h1, h2]

/-- Witness for `unknown_method_never_returns` at the documented `'SSFCv'`. -/
theorem unknown_method_never_returns_witness :
    ("SSFCv" ≠ "SAC") ∧ ("SSFCv" ≠ "SSFC")
    ∧ compute nrm1 lstsqZ lsZ (981/100) "SSFCv" true 1000 () arZero1 =
        .error .nameError :=
  ⟨by decide, by decide,
    unknown_method_never_returns nrm1 lstsqZ lsZ (981/100) true 1000 () arZero1
      "SSFCv" (by decide) (by decide)⟩

/-- C10: for method `'SAC'`, under the numpy `lstsq` contract — the returned
residual array is non-empty exactly when the stacked system is strictly
overdetermined and of full rank — `compute` returns a value if and only if
`3M > 6` and `rank(A) = 6`; whenever the solver's residual array is empty,
the access `residual[0]` raises (`IndexError`) instead of returning a
fabricated residual. -/
theorem sac_residual_guard {O : Type} {n : ℕ} (nrm : Vec3 → ℚ)
    (lstsq : List (Fin 6 → ℚ) → List ℚ → (Fin 6 → ℚ) × List ℚ)
    (least_squares : ((Fin 6 → ℚ) → List ℚ) → (Fin 6 → ℚ) → O → (Fin 6 → ℚ) × ℚ)
    (g : ℚ) (mask_input : Bool) (min_samples : ℕ) (opt_kwargs : O)
    (ar : Arrays n) (mask : Fin n → Bool)
    (hm : buildMask nrm g mask_input min_samples ar = some mask)
    (hnp : (lstsq (sacA ar (maskedIdx mask)) (sacB ar (maskedIdx mask))).2 ≠ [] ↔
      (6 < (sacA ar (maskedIdx mask)).length
        ∧ (toMatrix (sacA ar (maskedIdx mask))).rank = 6)) :
    ((∃ v, compute nrm lstsq least_squares g "SAC" mask_input min_samples opt_kwargs ar =
        .ok v) ↔
      (6 < 3 * (maskedIdx mask).length
        ∧ (toMatrix (sacA ar (maskedIdx mask))).rank = 6))
    ∧ ((lstsq (sacA ar (maskedIdx mask)) (sacB ar (maskedIdx mask))).2 = [] →
      compute nrm lstsq least_squares g "SAC" mask_input min_samples opt_kwargs ar =
        .error .indexError) := by
  have hA := sacA_length ar (maskedIdx mask)
  rcases hres : (lstsq (sacA ar (maskedIdx mask)) (sacB ar (maskedIdx mask))).2
    with _ | ⟨r0, rest⟩
  · have hcomp : compute nrm lstsq least_squares g "SAC" mask_input min_samples
        opt_kwargs ar = .error .indexError := by
      simp [compute, hm, hres]
    refine ⟨?_, fun _ => hcomp⟩
    rw [← hA]
    refine iff_of_false ?_ ?_
    · rintro ⟨v, hv⟩
      rw [hcomp] at hv
      exact absurd hv (by simp)
    · intro hp
      exact (hnp.mpr hp) hres
  · refine ⟨?_, fun hempty => absurd hempty (List.cons_ne_nil r0 rest)⟩
    rw [← hA]
    refine iff_of_true ?_ (hnp.mp (by rw [hres]; simp))
    simp [compute, hm, hres]

/-- Witness for `sac_residual_guard`: one all-zero sample with masking
disabled gives a `3×6` system (`3M = 3 ≤ 6`), the stub solver returns an
empty residual array, and `compute` raises `IndexError`. -/
theorem sac_residual_guard_witness :
    (lstsqE (sacA arZero1 (maskedIdx (fun _ : Fin 1 => true)))
        (sacB arZero1 (maskedIdx (fun _ : Fin 1 => true)))).2 = []
    ∧ ((∃ v, compute nrm1 lstsqE lsZ (981/100) "SAC" false 1000 () arZero1 = .ok v) ↔
      (6 < 3 * (maskedIdx (fun _ : Fin 1 => true)).length
        ∧ (toMatrix (sacA arZero1 (maskedIdx (fun _ : Fin 1 => true)))).rank = 6))
    ∧ compute nrm1 lstsqE lsZ (981/100) "SAC" false 1000 () arZero1 =
        .error .indexError := by
  have hlen : (sacA arZero1 (maskedIdx (fun _ : Fin 1 => true))).length = 3 := rfl
  have hnp : (lstsqE (sacA arZero1 (maskedIdx (fun _ : Fin 1 => true)))
      (sacB arZero1 (maskedIdx (fun _ : Fin 1 => true)))).2 ≠ [] ↔
      (6 < (sacA arZero1 (maskedIdx (fun _ : Fin 1 => true))).length
        ∧ (toMatrix (sacA arZero1 (maskedIdx (fun _ : Fin 1 => true)))).rank = 6) := by
    constructor
    · intro h
      exact absurd rfl h
    · rintro ⟨h6, _⟩
      rw [hlen] at h6
      exact absurd h6 (by omega)
  have h := sac_residual_guard nrm1 lstsqE lsZ (981/100) false 1000 () arZero1
    (fun _ => true) rfl hnp
  exact ⟨rfl, h.1, h.2 rfl⟩
